import Mathlib

/-!
Verification development for the tiktok-downloader media-resolution pipeline.

The definitions below are a shallow embedding of the two source files
`src/app/parsers/youtube.py` and `src/main.py`:

* `YtStream`, `filterCandidates`, `orderByResolution`, `getHighestResolution`,
  `selectLoop`, `selectedStream`, `parseResult`, `parseFull` embed the YouTube
  parser `_parse` classmethod (stream filtering via
  `yt.streams.filter(type="video", progressive=True, file_extension="mp4")
  .order_by("resolution")`, the highest-resolution lookup
  `yt.streams.get_highest_resolution()`, the size-bounded selection loop, and
  the construction of the resulting `Video`, including the exception flow of
  the `try/except PytubeError` blocks).
* `matchYoutube` embeds the `REG_EXPS` pattern matching of the parser on the
  supported link shapes (watch?v=, youtu.be/, shorts/, each with optional
  scheme and `www.`).
* `processVideo` embeds the cache read/write flow of `_process_video` in
  `src/main.py`; `hasExtraCaption` embeds its "original video is larger"
  annotation condition.
* `extractLinks` embeds the link-span extraction of `link_parser`;
  `linkParserDeliver` embeds its delivery loop over parsed medias.
* `recordIfAbsent` embeds the history append of `chosen_inline_query`.
-/

/-- One pytube stream object, with the attributes `_parse` reads:
`url`, `filesize`, the numeric resolution used by `order_by("resolution")`,
the `progressive` flag, the stream `type` ("video"/"audio"), the file
extension (subtype) and the mime type. -/
structure YtStream where
  url : String
  filesize : Nat
  resolutionRank : Nat
  progressive : Bool
  streamType : String
  fileExtension : String
  mimeType : String
deriving DecidableEq, Repr

/-- `yt.streams.filter(type="video", progressive=True, file_extension="mp4")`. -/
def filterCandidates (l : List YtStream) : List YtStream :=
  l.filter (fun s => s.streamType == "video" && s.progressive && s.fileExtension == "mp4")

/-- The comparison `order_by("resolution")` sorts by: the numeric resolution,
ascending. -/
def rankLE (a b : YtStream) : Prop := a.resolutionRank ≤ b.resolutionRank

instance : DecidableRel rankLE := fun _ _ => Nat.decLe _ _

instance : IsTotal YtStream rankLE := ⟨fun _ _ => Nat.le_total _ _⟩

instance : IsTrans YtStream rankLE := ⟨fun _ _ _ => Nat.le_trans⟩

/-- `.order_by("resolution")`: a stable ascending sort on the numeric
resolution (pytube sorts with the stable Python `sorted`, ascending; a stable
sort by a total transitive comparison is unique, so the stable
`insertionSort` computes the same list). -/
def orderByResolution (l : List YtStream) : List YtStream :=
  l.insertionSort rankLE

/-- `yt.streams.get_highest_resolution()`, i.e.
`filter(progressive=True).order_by("resolution").desc().first()`:
the last element of the ascending resolution order over progressive
streams (`None` on an empty stream set). -/
def getHighestResolution (l : List YtStream) : Option YtStream :=
  ((orderByResolution (l.filter (fun s => s.progressive))).reverse).head?

/-- The selection loop of `_parse` (lines 62-71 of youtube.py):
state `(stream, max_fs)`, updated to `(st, st.filesize)` whenever
`constants.TG_FILE_LIMIT >= st.filesize > max_fs`. -/
def selectLoop (ceiling : Nat) : List YtStream → YtStream × Nat → YtStream × Nat
  | [], acc => acc
  | st :: rest, (cur, maxFs) =>
    if ceiling ≥ st.filesize ∧ st.filesize > maxFs then
      selectLoop ceiling rest (st, st.filesize)
    else
      selectLoop ceiling rest (cur, maxFs)

/-- The stream `_parse` ends up delivering: the loop starting from the
highest-resolution stream `best` and `max_fs = 0`. -/
def selectedStream (ceiling : Nat) (best : YtStream) (streams : List YtStream) : YtStream :=
  (selectLoop ceiling streams (best, 0)).1

/-- A Python exception escaping a pytube call inside `_parse`:
`pytubeProvider` is a `PytubeError` (removed / private / region-locked /
invalid content — the class the `except PytubeError` clause catches);
`transport` is any non-pytube failure (timeout, DNS, TLS);
`attributeOnNone` is the `AttributeError` raised by `stream.url` when
`get_highest_resolution()` returned `None`. -/
inductive PyErr
  | pytubeProvider
  | transport
  | attributeOnNone
deriving DecidableEq, Repr

/-- The descriptive fields read off the `pytube.YouTube` object while the
`Video` model is constructed: `yt.author`, `yt.title`, `yt.thumbnail_url`. -/
structure YtMeta where
  author : String
  title : String
  thumbnailUrl : String
deriving DecidableEq, Repr

/-- The provider-side responses `_parse` consumes: the result of the stream
listing (`yt.streams`, a network fetch that may raise), and the result of the
metadata accesses performed inside the `Video(...)` construction. -/
structure YtData where
  streamsResult : Except PyErr (List YtStream)
  metaResult : Except PyErr YtMeta
deriving Repr

/-- The `Video` pydantic model as `_parse` fills it. -/
structure VideoModel where
  author : String
  caption : String
  thumbnail_url : String
  url : String
  original_url : String
  max_quality_url : Option String
  mime_type : String
deriving DecidableEq, Repr

/-- The body of `_parse` after the id has been captured (lines 50-91 of
youtube.py). `yt.streams` is evaluated outside any `try`, so its errors
propagate; `get_highest_resolution()` returning `None` makes `stream.url`
raise; the metadata accesses happen inside `try ... except PytubeError`,
which maps a `PytubeError` to `return []` and lets anything else escape. -/
def parseResult (ceiling : Nat) (ytId : String) (yt : YtData) :
    Except PyErr (List VideoModel) :=
  match yt.streamsResult with
  | .error e => .error e
  | .ok allStreams =>
    match getHighestResolution allStreams with
    | none => .error PyErr.attributeOnNone
    | some best =>
      let streams := orderByResolution (filterCandidates allStreams)
      let sel := selectedStream ceiling best streams
      match yt.metaResult with
      | .error PyErr.pytubeProvider => .ok []
      | .error e => .error e
      | .ok meta =>
        .ok [{ author := meta.author
               caption := meta.title
               thumbnail_url := meta.thumbnailUrl
               url := sel.url
               original_url := "https://youtube.com/watch?v=" ++ ytId
               max_quality_url := some best.url
               mime_type := sel.mimeType }]

/-- Whole `_parse`: `match.group` on the id raising `IndexError` (no id group)
is caught and yields `[]`. -/
def parseFull (ceiling : Nat) (groupId : Option String) (yt : YtData) :
    Except PyErr (List VideoModel) :=
  match groupId with
  | none => .ok []
  | some ytId => parseResult ceiling ytId yt

/-! ### Invariants of the selection loop -/

/-- `max_fs` never decreases along the loop. -/
theorem selectLoop_fs_mono (ceiling : Nat) :
    ∀ (l : List YtStream) (init : YtStream) (fs0 : Nat),
      fs0 ≤ (selectLoop ceiling l (init, fs0)).2 := by
  intro l
  induction l with
  | nil => intro init fs0; exact Nat.le_refl _
  | cons st rest ih =>
    intro init fs0
    by_cases h : ceiling ≥ st.filesize ∧ st.filesize > fs0
    · simp only [selectLoop, if_pos h]
      exact Nat.le_trans (Nat.le_of_lt h.2) (ih st st.filesize)
    · simp only [selectLoop, if_neg h]
      exact ih init fs0

/-- The loop either leaves its state untouched, or ends on a list element
whose filesize is the recorded `max_fs`, strictly above the starting
`max_fs` and within the ceiling. -/
theorem selectLoop_cases (ceiling : Nat) :
    ∀ (l : List YtStream) (init : YtStream) (fs0 : Nat),
      selectLoop ceiling l (init, fs0) = (init, fs0) ∨
        ((selectLoop ceiling l (init, fs0)).1 ∈ l ∧
          (selectLoop ceiling l (init, fs0)).2
            = (selectLoop ceiling l (init, fs0)).1.filesize ∧
          fs0 < (selectLoop ceiling l (init, fs0)).2 ∧
          (selectLoop ceiling l (init, fs0)).2 ≤ ceiling) := by
  intro l
  induction l with
  | nil => intro init fs0; left; rfl
  | cons st rest ih =>
    intro init fs0
    by_cases h : ceiling ≥ st.filesize ∧ st.filesize > fs0
    · simp only [selectLoop, if_pos h]
      rcases ih st st.filesize with heq | ⟨hmem, hfs, hlt, hle⟩
      · right
        rw [heq]
        exact ⟨List.mem_cons_self st rest, rfl, h.2, h.1⟩
      · right
        exact ⟨List.mem_cons_of_mem st hmem, hfs, Nat.lt_trans h.2 hlt, hle⟩
    · simp only [selectLoop, if_neg h]
      rcases ih init fs0 with heq | ⟨hmem, hfs, hlt, hle⟩
      · left; exact heq
      · right; exact ⟨List.mem_cons_of_mem st hmem, hfs, hlt, hle⟩

/-- Every deliverable stream of the list (positive filesize within the
ceiling) is bounded by the final `max_fs`. -/
theorem selectLoop_max (ceiling : Nat) :
    ∀ (l : List YtStream) (init : YtStream) (fs0 : Nat) (s : YtStream),
      s ∈ l → 0 < s.filesize → s.filesize ≤ ceiling →
      s.filesize ≤ (selectLoop ceiling l (init, fs0)).2 := by
  intro l
  induction l with
  | nil => intro init fs0 s hs; cases hs
  | cons st rest ih =>
    intro init fs0 s hs hpos hle
    by_cases h : ceiling ≥ st.filesize ∧ st.filesize > fs0
    · simp only [selectLoop, if_pos h]
      rcases List.mem_cons.mp hs with rfl | hs'
      · exact selectLoop_fs_mono ceiling rest s s.filesize
      · exact ih st st.filesize s hs' hpos hle
    · simp only [selectLoop, if_neg h]
      rcases List.mem_cons.mp hs with rfl | hs'
      · rcases Nat.lt_or_ge fs0 s.filesize with hlt | hge
        · exact absurd ⟨hle, hlt⟩ h
        · exact Nat.le_trans hge (selectLoop_fs_mono ceiling rest init fs0)
      · exact ih init fs0 s hs' hpos hle

/-- On a list sorted ascending by resolution, any stream achieving the final
`max_fs` has a resolution rank at least that of the selected stream: the loop
keeps the first stream reaching the maximal size, i.e. the lowest-ranked one. -/
theorem selectLoop_tie (ceiling : Nat) :
    ∀ (l : List YtStream),
      l.Pairwise (fun x y => x.resolutionRank ≤ y.resolutionRank) →
      ∀ (init : YtStream) (fs0 : Nat) (s : YtStream),
        s ∈ l → s.filesize ≤ ceiling → fs0 < s.filesize →
        s.filesize = (selectLoop ceiling l (init, fs0)).2 →
        (selectLoop ceiling l (init, fs0)).1.resolutionRank ≤ s.resolutionRank := by
  intro l
  induction l with
  | nil => intro _ init fs0 s hs; cases hs
  | cons st rest ih =>
    intro hpw init fs0 s hs hle hgt heq
    rw [List.pairwise_cons] at hpw
    obtain ⟨hhead, htail⟩ := hpw
    by_cases h : ceiling ≥ st.filesize ∧ st.filesize > fs0
    · simp only [selectLoop, if_pos h] at heq ⊢
      rcases List.mem_cons.mp hs with rfl | hs'
      · rcases selectLoop_cases ceiling rest s s.filesize with hcase | ⟨_, hfs, hlt, _⟩
        · rw [hcase]
        · rw [hfs] at heq hlt
          omega
      · rcases Nat.lt_or_ge st.filesize s.filesize with hcmp | hcmp
        · exact ih htail st st.filesize s hs' hle hcmp heq
        · rcases selectLoop_cases ceiling rest st st.filesize with hcase | ⟨_, hfs, hlt, _⟩
          · rw [hcase]; exact hhead s hs'
          · omega
    · simp only [selectLoop, if_neg h] at heq ⊢
      rcases List.mem_cons.mp hs with rfl | hs'
      · exact absurd ⟨hle, hgt⟩ h
      · exact ih htail init fs0 s hs' hle hgt heq

/-- C1: whenever the candidate list holds at least one stream with
`0 < filesize ≤ ceiling`, the selection loop of `_parse` delivers a stream
of the list that fits the ceiling, has positive filesize, and whose filesize
is maximal among all streams with `0 < filesize ≤ ceiling`. -/
theorem selection_picks_max_deliverable (ceiling : Nat) (best : YtStream)
    (streams : List YtStream)
    (h : ∃ s ∈ streams, 0 < s.filesize ∧ s.filesize ≤ ceiling) :
    selectedStream ceiling best streams ∈ streams ∧
    0 < (selectedStream ceiling best streams).filesize ∧
    (selectedStream ceiling best streams).filesize ≤ ceiling ∧
    ∀ s ∈ streams, 0 < s.filesize → s.filesize ≤ ceiling →
      s.filesize ≤ (selectedStream ceiling best streams).filesize := by
  obtain ⟨s0, hs0, hpos0, hle0⟩ := h
  have hbound := selectLoop_max ceiling streams best 0 s0 hs0 hpos0 hle0
  rcases selectLoop_cases ceiling streams best 0 with hcase | ⟨hmem, hfs, hlt, hle⟩
  · rw [hcase] at hbound
    exact absurd hbound (by simpa using Nat.not_le.mpr hpos0)
  · unfold selectedStream
    refine ⟨hmem, by omega, by omega, ?_⟩
    intro s hs hp hl
    have := selectLoop_max ceiling streams best 0 s hs hp hl
    omega

/-- Closed witness for `selection_picks_max_deliverable`. -/
theorem selection_picks_max_deliverable_witness :
    (∃ s ∈ [YtStream.mk "a" 10 360 true "video" "mp4" "video/mp4",
            YtStream.mk "b" 30 720 true "video" "mp4" "video/mp4"],
        0 < s.filesize ∧ s.filesize ≤ 20) ∧
    (selectedStream 20 (YtStream.mk "b" 30 720 true "video" "mp4" "video/mp4")
        [YtStream.mk "a" 10 360 true "video" "mp4" "video/mp4",
         YtStream.mk "b" 30 720 true "video" "mp4" "video/mp4"]
      ∈ [YtStream.mk "a" 10 360 true "video" "mp4" "video/mp4",
         YtStream.mk "b" 30 720 true "video" "mp4" "video/mp4"] ∧
     0 < (selectedStream 20 (YtStream.mk "b" 30 720 true "video" "mp4" "video/mp4")
        [YtStream.mk "a" 10 360 true "video" "mp4" "video/mp4",
         YtStream.mk "b" 30 720 true "video" "mp4" "video/mp4"]).filesize ∧
     (selectedStream 20 (YtStream.mk "b" 30 720 true "video" "mp4" "video/mp4")
        [YtStream.mk "a" 10 360 true "video" "mp4" "video/mp4",
         YtStream.mk "b" 30 720 true "video" "mp4" "video/mp4"]).filesize ≤ 20 ∧
     ∀ s ∈ [YtStream.mk "a" 10 360 true "video" "mp4" "video/mp4",
            YtStream.mk "b" 30 720 true "video" "mp4" "video/mp4"],
        0 < s.filesize → s.filesize ≤ 20 →
        s.filesize ≤ (selectedStream 20
            (YtStream.mk "b" 30 720 true "video" "mp4" "video/mp4")
            [YtStream.mk "a" 10 360 true "video" "mp4" "video/mp4",
             YtStream.mk "b" 30 720 true "video" "mp4" "video/mp4"]).filesize) :=
  ⟨by decide,
   selection_picks_max_deliverable 20
     (YtStream.mk "b" 30 720 true "video" "mp4" "video/mp4")
     [YtStream.mk "a" 10 360 true "video" "mp4" "video/mp4",
      YtStream.mk "b" 30 720 true "video" "mp4" "video/mp4"]
     (by decide)⟩

/-- `get_highest_resolution()` returns a progressive stream of the set whose
resolution rank is maximal among progressive streams. -/
theorem getHighestResolution_mem_max (l : List YtStream) (b : YtStream)
    (hb : getHighestResolution l = some b) :
    b ∈ l ∧ b.progressive = true ∧
      ∀ s ∈ l, s.progressive = true → s.resolutionRank ≤ b.resolutionRank := by
  unfold getHighestResolution at hb
  have hsortedPW : (orderByResolution (l.filter (fun s => s.progressive))).Pairwise rankLE :=
    List.sorted_insertionSort rankLE _
  cases hrev : (orderByResolution (l.filter (fun s => s.progressive))).reverse with
  | nil => rw [hrev] at hb; cases hb
  | cons x t =>
    rw [hrev] at hb
    rw [List.head?_cons] at hb
    have hxb : x = b := Option.some.inj hb
    subst hxb
    have hrevPW : (orderByResolution (l.filter (fun s => s.progressive))).reverse.Pairwise
        (fun a c => rankLE c a) := List.pairwise_reverse.mpr hsortedPW
    rw [hrev, List.pairwise_cons] at hrevPW
    have hmem : x ∈ l.filter (fun s => s.progressive) := by
      have : x ∈ (orderByResolution (l.filter (fun s => s.progressive))).reverse := by
        rw [hrev]; exact List.mem_cons_self x t
      rw [List.mem_reverse] at this
      exact (List.mem_insertionSort rankLE).mp this
    have hxl := (List.mem_filter.mp hmem).1
    have hxprog : x.progressive = true := by
      simpa using (List.mem_filter.mp hmem).2
    refine ⟨hxl, hxprog, ?_⟩
    intro s hs hsprog
    have hsmem : s ∈ (orderByResolution (l.filter (fun s => s.progressive))).reverse := by
      rw [List.mem_reverse]
      exact (List.mem_insertionSort rankLE).mpr
        (List.mem_filter.mpr ⟨hs, by simpa using hsprog⟩)
    rw [hrev] at hsmem
    rcases List.mem_cons.mp hsmem with rfl | hst
    · exact Nat.le_refl _
    · exact hrevPW.1 s hst

/-- C2: when no candidate stream (video/progressive/mp4) has
`0 < filesize ≤ ceiling`, the `Video` that `_parse` returns has both its
delivery `url` and its `max_quality_url` equal to the url of the stream
`get_highest_resolution()` produced, and that stream has maximal resolution
rank among the progressive streams of the set. -/
theorem no_deliverable_gives_best (ceiling : Nat) (ytId : String) (yt : YtData)
    (allStreams : List YtStream)
    (hstreams : yt.streamsResult = Except.ok allStreams)
    (hnone : ∀ s ∈ filterCandidates allStreams, ¬(0 < s.filesize ∧ s.filesize ≤ ceiling))
    (v : VideoModel)
    (hv : parseFull ceiling (some ytId) yt = Except.ok [v]) :
    ∃ b, getHighestResolution allStreams = some b ∧
      v.url = b.url ∧ v.max_quality_url = some b.url ∧ b ∈ allStreams ∧
      ∀ s ∈ allStreams, s.progressive = true → s.resolutionRank ≤ b.resolutionRank := by
  unfold parseFull parseResult at hv
  simp only [hstreams] at hv
  cases hbest : getHighestResolution allStreams with
  | none => simp only [hbest] at hv; simp at hv
  | some best =>
    simp only [hbest] at hv
    have hsel : selectedStream ceiling best (orderByResolution (filterCandidates allStreams))
        = best := by
      rcases selectLoop_cases ceiling (orderByResolution (filterCandidates allStreams))
          best 0 with hcase | ⟨hmem, hfs, hlt, hle⟩
      · unfold selectedStream
        rw [hcase]
      · exfalso
        have hmem' : (selectLoop ceiling (orderByResolution (filterCandidates allStreams))
            (best, 0)).1 ∈ filterCandidates allStreams :=
          (List.mem_insertionSort rankLE).mp hmem
        exact hnone _ hmem' ⟨by omega, by omega⟩
    rcases hmeta : yt.metaResult with e | meta
    · simp only [hmeta] at hv
      cases e <;> simp at hv
    · simp only [hmeta] at hv
      simp only [Except.ok.injEq, List.cons.injEq, and_true] at hv
      obtain ⟨hbmem, -, hbmax⟩ := getHighestResolution_mem_max allStreams best hbest
      refine ⟨best, rfl, ?_, ?_, hbmem, hbmax⟩ <;>
        simp [← hv, hsel]

/-- Closed witness for `no_deliverable_gives_best`. -/
theorem no_deliverable_gives_best_witness :
    ((YtData.mk (Except.ok [YtStream.mk "big" 100 720 true "video" "mp4" "video/mp4"])
        (Except.ok (YtMeta.mk "au" "ti" "th"))).streamsResult
      = Except.ok [YtStream.mk "big" 100 720 true "video" "mp4" "video/mp4"]) ∧
    (∀ s ∈ filterCandidates [YtStream.mk "big" 100 720 true "video" "mp4" "video/mp4"],
      ¬(0 < s.filesize ∧ s.filesize ≤ 20)) ∧
    (parseFull 20 (some "x")
        (YtData.mk (Except.ok [YtStream.mk "big" 100 720 true "video" "mp4" "video/mp4"])
          (Except.ok (YtMeta.mk "au" "ti" "th")))
      = Except.ok [VideoModel.mk "au" "ti" "th" "big" "https://youtube.com/watch?v=x"
          (some "big") "video/mp4"]) ∧
    (∃ b, getHighestResolution [YtStream.mk "big" 100 720 true "video" "mp4" "video/mp4"]
        = some b ∧
      (VideoModel.mk "au" "ti" "th" "big" "https://youtube.com/watch?v=x"
          (some "big") "video/mp4").url = b.url ∧
      (VideoModel.mk "au" "ti" "th" "big" "https://youtube.com/watch?v=x"
          (some "big") "video/mp4").max_quality_url = some b.url ∧
      b ∈ [YtStream.mk "big" 100 720 true "video" "mp4" "video/mp4"] ∧
      ∀ s ∈ [YtStream.mk "big" 100 720 true "video" "mp4" "video/mp4"],
        s.progressive = true → s.resolutionRank ≤ b.resolutionRank) :=
  ⟨rfl, by decide, rfl,
    no_deliverable_gives_best 20 "x"
      (YtData.mk (Except.ok [YtStream.mk "big" 100 720 true "video" "mp4" "video/mp4"])
        (Except.ok (YtMeta.mk "au" "ti" "th")))
      [YtStream.mk "big" 100 720 true "video" "mp4" "video/mp4"]
      rfl (by decide)
      (VideoModel.mk "au" "ti" "th" "big" "https://youtube.com/watch?v=x"
        (some "big") "video/mp4")
      rfl⟩

/-- C3 counterexample: two candidate streams with equal maximal deliverable
size (10 ≤ ceiling 20) but different resolution ranks (360 vs 720); `_parse`
delivers the LOWER-ranked one (iteration is ascending in resolution and the
strict `>` comparison keeps the first stream reaching the maximal size), so
the claim that the higher rank wins the tie is false. -/
theorem tie_break_counterexample :
    parseFull 20 (some "x")
      (YtData.mk (Except.ok [YtStream.mk "high" 10 720 true "video" "mp4" "video/mp4",
                             YtStream.mk "low" 10 360 true "video" "mp4" "video/mp4"])
        (Except.ok (YtMeta.mk "au" "ti" "th")))
      = Except.ok [VideoModel.mk "au" "ti" "th" "low" "https://youtube.com/watch?v=x"
          (some "high") "video/mp4"] ∧
    (YtStream.mk "low" 10 360 true "video" "mp4" "video/mp4").resolutionRank
      < (YtStream.mk "high" 10 720 true "video" "mp4" "video/mp4").resolutionRank ∧
    (YtStream.mk "low" 10 360 true "video" "mp4" "video/mp4").filesize
      = (YtStream.mk "high" 10 720 true "video" "mp4" "video/mp4").filesize ∧
    0 < (YtStream.mk "low" 10 360 true "video" "mp4" "video/mp4").filesize ∧
    (YtStream.mk "high" 10 720 true "video" "mp4" "video/mp4").filesize ≤ 20 ∧
    "low" ≠ "high" :=
  ⟨rfl, by decide, by decide, by decide, by decide, by decide⟩

/-- C3 amended: on a size tie among deliverable candidates the selection
prefers the LOWEST resolution rank — the selected stream never has a higher
rank than any other stream of the same (maximal) filesize in the
resolution-ascending candidate order. -/
theorem tie_prefers_lowest_rank (ceiling : Nat) (best : YtStream)
    (raw : List YtStream) (s : YtStream)
    (hs : s ∈ orderByResolution raw) (hpos : 0 < s.filesize)
    (hle : s.filesize ≤ ceiling)
    (heq : s.filesize
      = (selectedStream ceiling best (orderByResolution raw)).filesize) :
    (selectedStream ceiling best (orderByResolution raw)).resolutionRank
      ≤ s.resolutionRank := by
  have hPW : (orderByResolution raw).Pairwise
      (fun x y => x.resolutionRank ≤ y.resolutionRank) :=
    List.sorted_insertionSort rankLE raw
  have hbound := selectLoop_max ceiling (orderByResolution raw) best 0 s hs hpos hle
  rcases selectLoop_cases ceiling (orderByResolution raw) best 0 with
    hcase | ⟨-, hfs, -, -⟩
  · rw [hcase] at hbound
    omega
  · have heq2 : s.filesize
        = (selectLoop ceiling (orderByResolution raw) (best, 0)).2 := by
      unfold selectedStream at heq
      omega
    exact selectLoop_tie ceiling (orderByResolution raw) hPW best 0 s hs hle hpos heq2

/-- Closed witness for `tie_prefers_lowest_rank`. -/
theorem tie_prefers_lowest_rank_witness :
    (YtStream.mk "low" 10 360 true "video" "mp4" "video/mp4"
        ∈ orderByResolution
            [YtStream.mk "high" 10 720 true "video" "mp4" "video/mp4",
             YtStream.mk "low" 10 360 true "video" "mp4" "video/mp4"]) ∧
    (selectedStream 20 (YtStream.mk "high" 10 720 true "video" "mp4" "video/mp4")
        (orderByResolution
            [YtStream.mk "high" 10 720 true "video" "mp4" "video/mp4",
             YtStream.mk "low" 10 360 true "video" "mp4" "video/mp4"])).resolutionRank
      ≤ (YtStream.mk "low" 10 360 true "video" "mp4" "video/mp4").resolutionRank :=
  ⟨by decide,
    tie_prefers_lowest_rank 20 (YtStream.mk "high" 10 720 true "video" "mp4" "video/mp4")
      [YtStream.mk "high" 10 720 true "video" "mp4" "video/mp4",
       YtStream.mk "low" 10 360 true "video" "mp4" "video/mp4"]
      (YtStream.mk "low" 10 360 true "video" "mp4" "video/mp4")
      (by decide) (by decide) (by decide) (by decide)⟩

/-- Any `Video` returned by `_parse` has exactly the shape built at lines
73-83 of youtube.py: metadata from the fetched object, delivery url from the
selected stream, and `max_quality_url` from the highest-resolution stream. -/
theorem parseFull_ok_shape (ceiling : Nat) (ytId : String) (yt : YtData)
    (v : VideoModel)
    (hv : parseFull ceiling (some ytId) yt = Except.ok [v]) :
    ∃ allStreams best meta,
      yt.streamsResult = Except.ok allStreams ∧
      getHighestResolution allStreams = some best ∧
      yt.metaResult = Except.ok meta ∧
      v = { author := meta.author
            caption := meta.title
            thumbnail_url := meta.thumbnailUrl
            url := (selectedStream ceiling best
                (orderByResolution (filterCandidates allStreams))).url
            original_url := "https://youtube.com/watch?v=" ++ ytId
            max_quality_url := some best.url
            mime_type := (selectedStream ceiling best
                (orderByResolution (filterCandidates allStreams))).mimeType } := by
  unfold parseFull parseResult at hv
  rcases hstreams : yt.streamsResult with e | allStreams
  · simp only [hstreams] at hv
    simp at hv
  · simp only [hstreams] at hv
    cases hbest : getHighestResolution allStreams with
    | none => simp only [hbest] at hv; simp at hv
    | some best =>
      simp only [hbest] at hv
      rcases hmeta : yt.metaResult with e | meta
      · simp only [hmeta] at hv
        cases e <;> simp at hv
      · simp only [hmeta] at hv
        simp only [Except.ok.injEq, List.cons.injEq, and_true] at hv
        exact ⟨allStreams, best, meta, rfl, hbest, rfl, hv.symm⟩

/-- The condition guarding the "Original video is larger ... This is original
link" caption in `_process_video` (line 41 of main.py):
`media.max_quality_url and media.max_quality_url != media.url`, with Python
truthiness (a missing or empty string is falsy). -/
def hasExtraCaption (m : VideoModel) : Bool :=
  match m.max_quality_url with
  | none => false
  | some q => (q != "") && (q != m.url)

/-- C4 counterexample: a candidate set whose only stream is oversize — the
delivery stream IS the best-by-resolution stream, yet the produced `Video`
carries `max_quality_url` present (`some`) and equal to the delivery url,
instead of the field being omitted. -/
theorem max_quality_not_omitted_counterexample :
    parseFull 20 (some "x")
      (YtData.mk (Except.ok [YtStream.mk "big" 100 720 true "video" "mp4" "video/mp4"])
        (Except.ok (YtMeta.mk "au" "ti" "th")))
      = Except.ok [VideoModel.mk "au" "ti" "th" "big" "https://youtube.com/watch?v=x"
          (some "big") "video/mp4"] ∧
    (VideoModel.mk "au" "ti" "th" "big" "https://youtube.com/watch?v=x"
        (some "big") "video/mp4").max_quality_url
      = some (VideoModel.mk "au" "ti" "th" "big" "https://youtube.com/watch?v=x"
          (some "big") "video/mp4").url ∧
    (VideoModel.mk "au" "ti" "th" "big" "https://youtube.com/watch?v=x"
        (some "big") "video/mp4").max_quality_url ≠ none :=
  ⟨rfl, rfl, by decide⟩

/-- C4 amended: `_parse` always sets `max_quality_url` — to the url of the
highest-resolution stream — even when it coincides with the delivery url; the
omission the spec describes happens only downstream, in `_process_video`,
whose "link to original" annotation fires only when the field is truthy and
differs from the delivery url (so it never fires when they are equal). -/
theorem max_quality_always_set (ceiling : Nat) (ytId : String) (yt : YtData)
    (v : VideoModel)
    (hv : parseFull ceiling (some ytId) yt = Except.ok [v]) :
    (∃ allStreams best,
      yt.streamsResult = Except.ok allStreams ∧
      getHighestResolution allStreams = some best ∧
      v.max_quality_url = some best.url) ∧
    (v.max_quality_url = some v.url → hasExtraCaption v = false) := by
  obtain ⟨allStreams, best, meta, hstreams, hbest, hmeta, hveq⟩ :=
    parseFull_ok_shape ceiling ytId yt v hv
  constructor
  · exact ⟨allStreams, best, hstreams, hbest, by rw [hveq]⟩
  · intro hEqUrl
    unfold hasExtraCaption
    rw [hEqUrl]
    simp

/-- Closed witness for `max_quality_always_set`. -/
theorem max_quality_always_set_witness :
    (parseFull 20 (some "x")
        (YtData.mk (Except.ok [YtStream.mk "big" 100 720 true "video" "mp4" "video/mp4"])
          (Except.ok (YtMeta.mk "au" "ti" "th")))
      = Except.ok [VideoModel.mk "au" "ti" "th" "big" "https://youtube.com/watch?v=x"
          (some "big") "video/mp4"]) ∧
    (∃ allStreams best,
      (YtData.mk (Except.ok [YtStream.mk "big" 100 720 true "video" "mp4" "video/mp4"])
          (Except.ok (YtMeta.mk "au" "ti" "th"))).streamsResult
        = Except.ok allStreams ∧
      getHighestResolution allStreams = some best ∧
      (VideoModel.mk "au" "ti" "th" "big" "https://youtube.com/watch?v=x"
          (some "big") "video/mp4").max_quality_url = some best.url) ∧
    ((VideoModel.mk "au" "ti" "th" "big" "https://youtube.com/watch?v=x"
        (some "big") "video/mp4").max_quality_url
      = some (VideoModel.mk "au" "ti" "th" "big" "https://youtube.com/watch?v=x"
          (some "big") "video/mp4").url →
      hasExtraCaption (VideoModel.mk "au" "ti" "th" "big"
        "https://youtube.com/watch?v=x" (some "big") "video/mp4") = false) :=
  ⟨rfl,
    (max_quality_always_set 20 "x"
      (YtData.mk (Except.ok [YtStream.mk "big" 100 720 true "video" "mp4" "video/mp4"])
        (Except.ok (YtMeta.mk "au" "ti" "th")))
      (VideoModel.mk "au" "ti" "th" "big" "https://youtube.com/watch?v=x"
        (some "big") "video/mp4") rfl).1,
    (max_quality_always_set 20 "x"
      (YtData.mk (Except.ok [YtStream.mk "big" 100 720 true "video" "mp4" "video/mp4"])
        (Except.ok (YtMeta.mk "au" "ti" "th")))
      (VideoModel.mk "au" "ti" "th" "big" "https://youtube.com/watch?v=x"
        (some "big") "video/mp4") rfl).2⟩

/-! ### Link matching and the original url -/

/-- A character matched by the id group `[\w-]+` of the `REG_EXPS`
(ASCII word characters and the hyphen). -/
def isIdChar (c : Char) : Bool := c.isAlphanum || c == '_' || c == '-'

/-- Capture of the id group `(?P<id>[\w-]+)`: the maximal nonempty run of id
characters at the current position. -/
def takeGroupId (s : List Char) : Option String :=
  let ident := s.takeWhile isIdChar
  if ident.isEmpty then none else some (String.mk ident)

/-- Strip a literal pattern piece from the front of the remaining input. -/
def stripPiece (p : String) (s : List Char) : Option (List Char) :=
  if p.toList.isPrefixOf s then some (s.drop p.toList.length) else none

/-- The optional scheme piece `https?://` of both regexes. -/
def stripScheme (s : List Char) : List Char :=
  match stripPiece "https://" s with
  | some r => r
  | none =>
    match stripPiece "http://" s with
    | some r => r
    | none => s

/-- The `REG_EXPS` matching of the YouTube parser on the supported link
shapes (watch?v=, youtu.be/, shorts/, with optional scheme and `www.`),
anchored at the start of the link; returns the captured video id. The first
regex tries the `youtube.com/watch?v=` branch (optionally `www.`-prefixed)
and then the `youtu.be/` branch; the second regex matches
`youtube.com/shorts/` (optionally `www.`-prefixed). -/
def matchYoutube (link : String) : Option String :=
  let s := stripScheme link.toList
  match stripPiece "www.youtube.com/watch?v=" s with
  | some r => takeGroupId r
  | none =>
    match stripPiece "youtube.com/watch?v=" s with
    | some r => takeGroupId r
    | none =>
      match stripPiece "youtu.be/" s with
      | some r => takeGroupId r
      | none =>
        match stripPiece "www.youtube.com/shorts/" s with
        | some r => takeGroupId r
        | none =>
          match stripPiece "youtube.com/shorts/" s with
          | some r => takeGroupId r
          | none => none

/-- C5 counterexample: the accepted link `https://youtu.be/abc` (captured
id `abc`) produces a Media whose `original_url` is the rebuilt canonical
url `https://youtube.com/watch?v=abc` — not the exact link string the user
supplied. -/
theorem original_url_counterexample :
    matchYoutube "https://youtu.be/abc" = some "abc" ∧
    parseFull 20 (matchYoutube "https://youtu.be/abc")
      (YtData.mk (Except.ok [YtStream.mk "u" 10 360 true "video" "mp4" "video/mp4"])
        (Except.ok (YtMeta.mk "au" "ti" "th")))
      = Except.ok [VideoModel.mk "au" "ti" "th" "u" "https://youtube.com/watch?v=abc"
          (some "u") "video/mp4"] ∧
    (VideoModel.mk "au" "ti" "th" "u" "https://youtube.com/watch?v=abc"
        (some "u") "video/mp4").original_url ≠ "https://youtu.be/abc" :=
  ⟨rfl, rfl, by decide⟩

/-- C5 amended: for every accepted link, the `original_url` of the produced
Media is the canonical `https://youtube.com/watch?v=` followed by the
captured id — `_parse` rebuilds the url from the id instead of retaining the
supplied link (the two coincide only when the supplied link is already in
exactly that canonical form). -/
theorem original_url_canonical (ceiling : Nat) (link ytId : String)
    (yt : YtData) (v : VideoModel)
    (hmatch : matchYoutube link = some ytId)
    (hv : parseFull ceiling (matchYoutube link) yt = Except.ok [v]) :
    v.original_url = "https://youtube.com/watch?v=" ++ ytId := by
  rw [hmatch] at hv
  obtain ⟨allStreams, best, meta, -, -, -, hveq⟩ :=
    parseFull_ok_shape ceiling ytId yt v hv
  rw [hveq]

/-- Closed witness for `original_url_canonical`. -/
theorem original_url_canonical_witness :
    (matchYoutube "https://youtu.be/abc" = some "abc") ∧
    (parseFull 20 (matchYoutube "https://youtu.be/abc")
        (YtData.mk (Except.ok [YtStream.mk "u" 10 360 true "video" "mp4" "video/mp4"])
          (Except.ok (YtMeta.mk "au" "ti" "th")))
      = Except.ok [VideoModel.mk "au" "ti" "th" "u" "https://youtube.com/watch?v=abc"
          (some "u") "video/mp4"]) ∧
    (VideoModel.mk "au" "ti" "th" "u" "https://youtube.com/watch?v=abc"
        (some "u") "video/mp4").original_url
      = "https://youtube.com/watch?v=" ++ "abc" :=
  ⟨rfl, rfl,
    original_url_canonical 20 "https://youtu.be/abc" "abc"
      (YtData.mk (Except.ok [YtStream.mk "u" 10 360 true "video" "mp4" "video/mp4"])
        (Except.ok (YtMeta.mk "au" "ti" "th")))
      (VideoModel.mk "au" "ti" "th" "u" "https://youtube.com/watch?v=abc"
        (some "u") "video/mp4")
      rfl rfl⟩

/-! ### Error flow of the parse -/

/-- C6 counterexample: a provider-side error (a `PytubeError` such as
VideoUnavailable, raised for removed/private/region-locked content) surfacing
at the stream listing `yt.streams` happens OUTSIDE the `try/except
PytubeError` block, so `_parse` propagates it as an exception instead of
returning the empty list. -/
theorem provider_error_propagates_counterexample :
    parseFull 20 (some "x")
      (YtData.mk (Except.error PyErr.pytubeProvider)
        (Except.ok (YtMeta.mk "au" "ti" "th")))
      = Except.error PyErr.pytubeProvider ∧
    (Except.error PyErr.pytubeProvider : Except PyErr (List VideoModel))
      ≠ Except.ok [] :=
  ⟨rfl, fun h => Except.noConfusion h⟩

/-- C6 amended: the `except PytubeError` clause maps provider-side errors to
the empty list ONLY when they surface during the construction of the `Video`
(the metadata accesses); a missing id group also yields the empty list; but a
provider-side (or any other) error raised at the stream listing propagates
to the caller. -/
theorem provider_error_handling (ceiling : Nat) (ytId : String)
    (allStreams : List YtStream) (b : YtStream)
    (hb : getHighestResolution allStreams = some b) :
    (parseFull ceiling (some ytId)
        (YtData.mk (Except.ok allStreams) (Except.error PyErr.pytubeProvider))
      = Except.ok []) ∧
    (∀ e m, parseFull ceiling (some ytId) (YtData.mk (Except.error e) m)
      = Except.error e) ∧
    (∀ yt, parseFull ceiling none yt = Except.ok []) := by
  refine ⟨?_, fun e m => rfl, fun yt => rfl⟩
  unfold parseFull parseResult
  simp only [hb]

/-- Closed witness for `provider_error_handling`. -/
theorem provider_error_handling_witness :
    (getHighestResolution [YtStream.mk "u" 10 360 true "video" "mp4" "video/mp4"]
      = some (YtStream.mk "u" 10 360 true "video" "mp4" "video/mp4")) ∧
    (parseFull 20 (some "x")
        (YtData.mk (Except.ok [YtStream.mk "u" 10 360 true "video" "mp4" "video/mp4"])
          (Except.error PyErr.pytubeProvider))
      = Except.ok []) ∧
    (∀ e m, parseFull 20 (some "x") (YtData.mk (Except.error e) m)
      = Except.error e) ∧
    (∀ yt, parseFull 20 none yt = Except.ok []) :=
  ⟨rfl,
    provider_error_handling 20 "x"
      [YtStream.mk "u" 10 360 true "video" "mp4" "video/mp4"]
      (YtStream.mk "u" 10 360 true "video" "mp4" "video/mp4") rfl⟩

/-! ### The delivery cache of `_process_video` -/

/-- The cache read/write flow of `_process_video` (lines 51-85 of main.py):
the cached Telegram video for `media.original_url` is looked up, the send is
attempted (with the cached handle when present), and only a successful send
writes `ctx.tg_video_cache[media.original_url] = res.video.to_dict()`; the
`except BadRequest` path re-raises without touching the cache. The cache is
a map from original urls to opaque handles; `send` is the external
`reply_video` call, returning the handle of the sent video or failing. -/
def processVideo (cache : String → Option Nat) (origUrl : String)
    (send : Option Nat → Except Unit Nat) :
    Except Unit Nat × (String → Option Nat) :=
  let tgVideo := cache origUrl
  match send tgVideo with
  | Except.ok res => (Except.ok res, fun k => if k = origUrl then some res else cache k)
  | Except.error e => (Except.error e, cache)

/-- C7: after a successful delivery the cache entry for the original url
holds the new handle (overwriting whatever was there); entries for other
keys are untouched; and when the delivery raises, the whole cache is left
unchanged. -/
theorem cache_written_iff_success (cache : String → Option Nat)
    (origUrl : String) (send : Option Nat → Except Unit Nat) :
    (∀ res, send (cache origUrl) = Except.ok res →
      (processVideo cache origUrl send).2 origUrl = some res) ∧
    (∀ k, k ≠ origUrl → (processVideo cache origUrl send).2 k = cache k) ∧
    (∀ e, send (cache origUrl) = Except.error e →
      (processVideo cache origUrl send).2 = cache) := by
  refine ⟨?_, ?_, ?_⟩
  · intro res hres
    simp only [processVideo, hres]
    simp
  · intro k hk
    simp only [processVideo]
    cases hsend : send (cache origUrl) with
    | ok res => simp [hk]
    | error e => rfl
  · intro e he
    simp only [processVideo, he]

/-- Closed witness for `cache_written_iff_success`. -/
theorem cache_written_iff_success_witness :
    ((processVideo (fun _ => some 3) "u" (fun _ => Except.ok 7)).2 "u" = some 7) ∧
    ((processVideo (fun _ => some 3) "u" (fun _ => Except.ok 7)).2 "w" = some 3) ∧
    ((processVideo (fun _ => some 3) "u" (fun _ => Except.error ())).2
      = fun _ => some 3) :=
  ⟨(cache_written_iff_success (fun _ => some 3) "u" (fun _ => Except.ok 7)).1 7 rfl,
   (cache_written_iff_success (fun _ => some 3) "u" (fun _ => Except.ok 7)).2.1 "w"
      (by decide),
   (cache_written_iff_success (fun _ => some 3) "u" (fun _ => Except.error ())).2.2 ()
      rfl⟩

/-! ### History dedup of `chosen_inline_query` -/

/-- The history append of `chosen_inline_query` (lines 178-180 of main.py):
`if video not in ctx.history: ctx.history.append(video)` — membership is
Python value equality. -/
def recordIfAbsent {α : Type} [DecidableEq α] (history : List α) (video : α) :
    List α :=
  if video ∈ history then history else history ++ [video]

/-- C8: recording the same (value-equal) video twice is the same as
recording it once; from an empty history that leaves exactly one entry; a
video absent from the history occurs exactly once after the two calls; and
recording preserves duplicate-freedom, so a duplicate-free history never
holds two value-equal videos. -/
theorem record_twice_single_copy {α : Type} [DecidableEq α]
    (h : List α) (v : α) :
    recordIfAbsent (recordIfAbsent h v) v = recordIfAbsent h v ∧
    (recordIfAbsent ([] : List α) v).length = 1 ∧
    (v ∉ h → (recordIfAbsent (recordIfAbsent h v) v).count v = 1) ∧
    (h.Nodup → (recordIfAbsent h v).Nodup) := by
  have hmem : v ∈ recordIfAbsent h v := by
    unfold recordIfAbsent
    by_cases hm : v ∈ h
    · rw [if_pos hm]; exact hm
    · rw [if_neg hm]
      exact List.mem_append_right h (List.mem_singleton_self v)
  have hidem : recordIfAbsent (recordIfAbsent h v) v = recordIfAbsent h v := by
    have hstep : recordIfAbsent (recordIfAbsent h v) v
        = if v ∈ recordIfAbsent h v then recordIfAbsent h v
          else recordIfAbsent h v ++ [v] := rfl
    rw [hstep, if_pos hmem]
  refine ⟨hidem, by simp [recordIfAbsent], ?_, ?_⟩
  · intro hab
    rw [hidem]
    unfold recordIfAbsent
    rw [if_neg hab]
    rw [List.count_append]
    rw [List.count_eq_zero_of_not_mem hab]
    simp
  · intro hnd
    unfold recordIfAbsent
    by_cases hm : v ∈ h
    · rw [if_pos hm]; exact hnd
    · rw [if_neg hm]
      simp [List.nodup_append, hnd, hm]

/-- Closed witness for `record_twice_single_copy`. -/
theorem record_twice_single_copy_witness :
    (recordIfAbsent (recordIfAbsent [2, 3] 5) 5 = recordIfAbsent [2, 3] 5 ∧
      (recordIfAbsent ([] : List Nat) 5).length = 1 ∧
      (recordIfAbsent (recordIfAbsent [2, 3] 5) 5).count 5 = 1 ∧
      (recordIfAbsent [2, 3] 5).Nodup) :=
  ⟨(record_twice_single_copy [2, 3] 5).1,
   (record_twice_single_copy [2, 3] 5).2.1,
   (record_twice_single_copy [2, 3] 5).2.2.1 (by decide),
   (record_twice_single_copy [2, 3] 5).2.2.2 (by decide)⟩

/-! ### Link extraction and delivery order of `link_parser` -/

/-- A Telegram message entity type, reduced to what `link_parser` inspects:
`MessageEntityType.URL`, `MessageEntityType.TEXT_LINK`, or anything else. -/
inductive EntityKind
  | url
  | textLink
  | other
deriving DecidableEq, Repr

/-- A message entity: an offset/length span of the message text plus its
type. -/
structure MsgEntity where
  offset : Nat
  length : Nat
  kind : EntityKind
deriving DecidableEq, Repr

/-- The Python slice `text[entity.offset : entity.offset + entity.length]`. -/
def entitySpan (text : List Char) (e : MsgEntity) : List Char :=
  (text.drop e.offset).take e.length

/-- The `message_links` comprehension of `link_parser` (lines 106-111 of
main.py): the span of every entity whose type is URL or TEXT_LINK, walked in
entity order. -/
def extractLinks (text : List Char) : List MsgEntity → List (List Char)
  | [] => []
  | e :: rest =>
    if e.kind == EntityKind.url || e.kind == EntityKind.textLink then
      entitySpan text e :: extractLinks text rest
    else
      extractLinks text rest

/-- The argument list `link_parser` hands to the parser dispatch
(`Parser.parse(session, *message_links)`, line 116 of main.py): exactly the
extracted links, unchanged and in extraction order. -/
def dispatchedLinks (text : List Char) (entities : List MsgEntity) :
    List (List Char) :=
  extractLinks text entities

/-- C9: the links handed to the parser dispatch are precisely the spans of
the URL and TEXT_LINK entities, in their order of appearance in the
message. -/
theorem extractLinks_ordered_spans (text : List Char)
    (entities : List MsgEntity) :
    dispatchedLinks text entities
      = (entities.filter
          (fun e => e.kind == EntityKind.url || e.kind == EntityKind.textLink)).map
          (entitySpan text) := by
  unfold dispatchedLinks
  induction entities with
  | nil => rfl
  | cons e rest ih =>
    by_cases hk : (e.kind == EntityKind.url || e.kind == EntityKind.textLink) = true
    · simp only [extractLinks, if_pos hk, List.filter_cons, hk, List.map_cons, ih]
      simp
    · simp only [extractLinks, if_neg hk, List.filter_cons, hk, ih]
      simp

/-! ### Delivery of the first parsed media -/

/-- A resolved Media value as `link_parser` sees it: a `Video` or a
`MediaGroup` (a shared caption over an ordered list of sub-items). -/
inductive MediaItem
  | video (v : VideoModel)
  | group (caption : String) (items : List String)
deriving DecidableEq, Repr

/-- What `link_parser` does with the merged media list. -/
inductive DeliveryAction
  | sendVideo (v : VideoModel)
  | sendMediaGroup (caption : String) (items : List String)
  | nothing
deriving DecidableEq, Repr

/-- The delivery loop of `link_parser` (lines 118-128 of main.py): iterate
the merged medias; on the first `Video` call `_process_video` and RETURN; on
the first `MediaGroup` call `_process_media_group` and RETURN. -/
def linkParserDeliver : List MediaItem → DeliveryAction
  | [] => DeliveryAction.nothing
  | MediaItem.video v :: _ => DeliveryAction.sendVideo v
  | MediaItem.group c its :: _ => DeliveryAction.sendMediaGroup c its

/-- C10: whatever follows the first merged media is discarded — the delivery
on `m :: rest` is the delivery on `[m]` alone, for every tail, and the first
media is always delivered (never `nothing`). -/
theorem deliver_first_only (m : MediaItem) (rest : List MediaItem) :
    linkParserDeliver (m :: rest) = linkParserDeliver [m] ∧
    linkParserDeliver (m :: rest) ≠ DeliveryAction.nothing := by
  cases m <;> exact ⟨rfl, fun h => DeliveryAction.noConfusion h⟩
